import Mathlib

/-!
# cert-manager-webhook-hostingde: the DNS-01 solver and its API client

A shallow embedding of `main.go`, `client.go` and `model.go`.

Conventions of the embedding

* Go `string` is `String`, Go `int` is `Int`, a slice is a `List` (a nil slice and an
  empty slice are both `[]`), a pointer that may be nil is an `Option`.
* A Go result pair `(*T, error)` is `Option T × Option Error`, so that a function
  returning both a value and an error is represented as it is.
* A run-time panic (nil dereference, index out of range) is the `Go.panic` outcome.  A
  function that changes state returns the state it leaves together with its outcome,
  so that the state reached before a panic is part of the result.
* Everything outside the process is an input of the model, collected in `Env`:
  the JSON codec, the secret store, the HTTP exchanges and the time budget the
  back-off policy grants.
-/

namespace Hostingde

/-! ## model.go -/

/-- One entry of `APIError.Details`; the `interface{}` value is kept as its JSON text. -/
structure APIErrorDetail where
  Key : String
  Value : String
  deriving DecidableEq, Repr

/-- APIError represents an error in an API response. -/
structure APIError where
  Code : Int
  ContextObject : String
  ContextPath : String
  Text : String
  Value : String
  Details : List APIErrorDetail
  deriving DecidableEq, Repr

/-- Filter is used to filter FindRequests to the API. -/
structure Filter where
  Field : String := ""
  Value : String := ""
  deriving DecidableEq, Repr

/-- Sort is used to sort FindRequests from the API (the Go type `Sort`). -/
structure Sort_ where
  Field : String
  Order : String
  deriving DecidableEq, Repr

/-- Metadata represents the metadata in an API response. -/
structure Metadata where
  ClientTransactionID : String := ""
  ServerTransactionID : String := ""
  deriving DecidableEq, Repr

/-- The SOA values object. -/
structure SOAValues where
  Refresh : Int
  Retry : Int
  Expire : Int
  TTL : Int
  NegativeTTL : Int
  deriving DecidableEq, Repr

/-- The ZoneConfig object defines a zone (`Type_` is the Go field `Type`,
`TemplateValues` the bytes of the `json.RawMessage`). -/
structure ZoneConfig where
  ID : String := ""
  AccountID : String := ""
  Status : String := ""
  Name : String := ""
  NameUnicode : String := ""
  MasterIP : String := ""
  Type_ : String := ""
  EMailAddress : String := ""
  ZoneTransferWhitelist : List String := []
  LastChangeDate : String := ""
  DNSServerGroupID : String := ""
  DNSSecMode : String := ""
  SOAValues : Option SOAValues := none
  TemplateValues : String := ""
  deriving DecidableEq, Repr

/-- The DNS Record object (`Type_` is the Go field `Type`). -/
structure DNSRecord where
  ID : String := ""
  ZoneID : String := ""
  RecordTemplateID : String := ""
  Name : String := ""
  Type_ : String := ""
  Content : String := ""
  TTL : Int := 0
  Priority : Int := 0
  LastChangeDate : String := ""
  deriving DecidableEq, Repr

/-- The Zone object. -/
structure Zone where
  Records : List DNSRecord := []
  ZoneConfig : ZoneConfig := {}
  deriving DecidableEq, Repr

/-- BaseRequest, the common request struct. -/
structure BaseRequest where
  AuthToken : String := ""
  deriving DecidableEq, Repr

/-- BaseResponse, the common response struct. -/
structure BaseResponse where
  Errors : List APIError := []
  Metadata : Metadata := {}
  Warnings : List String := []
  Status : String := ""
  deriving DecidableEq, Repr

/-- ZoneUpdateRequest: the embedded `BaseRequest` and `ZoneConfig` plus the two
record lists. -/
structure ZoneUpdateRequest where
  AuthToken : String := ""
  ZoneConfig : ZoneConfig := {}
  RecordsToAdd : List DNSRecord := []
  RecordsToDelete : List DNSRecord := []
  deriving DecidableEq, Repr

/-- ZoneUpdateResponse represents a response from the API. -/
structure ZoneUpdateResponse extends BaseResponse where
  Response : Zone := {}
  deriving DecidableEq, Repr

/-- ZoneConfigsFindRequest represents a API ZonesFind request. -/
structure ZoneConfigsFindRequest where
  AuthToken : String := ""
  Filter : Filter := {}
  Limit : Int := 0
  Page : Int := 0
  Sort_ : Option Sort_ := none
  deriving DecidableEq, Repr

/-- The anonymous struct of `ZoneConfigsFindResponse.Response`. -/
structure ZoneConfigsFindData where
  Limit : Int := 0
  Page : Int := 0
  TotalEntries : Int := 0
  TotalPages : Int := 0
  Type_ : String := ""
  Data : List ZoneConfig := []
  deriving DecidableEq, Repr

/-- ZoneConfigsFindResponse represents the API response for ZoneConfigsFind. -/
structure ZoneConfigsFindResponse extends BaseResponse where
  Response : ZoneConfigsFindData := {}
  deriving DecidableEq, Repr

/-! ## main.go: UnFqdn -/

/-- UnFqdn of `main.go`.  Go tests the last byte against `'.'` and cuts one byte;
`'.'` is a one-byte code point that cannot occur inside a longer UTF-8 sequence,
so on the characters of the string this is: test the last character, cut it. -/
def UnFqdn (name : String) : String :=
  let n := name.data.length
  if n ≠ 0 ∧ name.data.get? (n - 1) = some '.' then
    ⟨name.data.take (n - 1)⟩
  else
    name

/-! ## Errors, panics and the encoding libraries -/

/-- A Go `error` value, represented by the text of its `Error()` method. -/
structure Error where
  msg : String
  deriving DecidableEq, Repr

/-- The run-time panics the program can raise: the nil dereferences of `baseResp` (in
toUnreadableBodyMessage), `findResponse` (in getZone), `c.config`, `zoneConfig` and
`resp` (in Present and CleanUp), and the index `Data[0]` out of range. -/
inductive Panic where
  | nilBaseResp
  | nilFindResponse
  | indexOutOfRange
  | nilConfig
  | nilZoneConfig
  | nilResp
  deriving DecidableEq, Repr

/-- Outcome of a Go call: it returns, or the goroutine panics. -/
inductive Go (α : Type) where
  | ret (a : α)
  | panic (reason : Panic)
  deriving DecidableEq, Repr

/-- What `json.Unmarshal(rawBody, &baseResp)` leaves behind, `baseResp` being a
`*BaseResponse`: an error, a nil pointer (the JSON text `null`), or a decoded value. -/
inductive Decoded where
  | failure
  | null
  | value (b : BaseResponse)
  deriving DecidableEq, Repr

/-- The functions of `encoding/json`, `fmt` and `unicode` the program uses, as inputs of
the model.  The three laws are facts of `encoding/json`: the empty input is a syntax
error, and the encoding of a struct is a JSON object, which never decodes to a nil
pointer. -/
structure Stdlib where
  /-- Result of `json.Marshal` on a `*ZoneUpdateResponse`, `none` when it fails. -/
  marshalZoneUpdateResponse : ZoneUpdateResponse → Option String
  /-- Result of `json.Marshal` on a `*ZoneConfigsFindResponse`, `none` when it fails. -/
  marshalZoneConfigsFindResponse : ZoneConfigsFindResponse → Option String
  /-- Result of `json.Marshal` on a `*BaseResponse`, `none` when it fails. -/
  marshalBaseResponse : BaseResponse → Option String
  /-- Result of `json.Unmarshal` into a `**BaseResponse`. -/
  unmarshalBaseResponse : String → Decoded
  /-- The verb `%q` of `fmt`. -/
  quote : String → String
  /-- The function `unicode.ToLower`, on one code point. -/
  unicodeToLower : Char → Char
  empty_fails : unmarshalBaseResponse "" = Decoded.failure
  update_object : ∀ z s, marshalZoneUpdateResponse z = some s →
    unmarshalBaseResponse s ≠ Decoded.null
  find_object : ∀ z s, marshalZoneConfigsFindResponse z = some s →
    unmarshalBaseResponse s ≠ Decoded.null

/-- The call `errors.New(text)`. -/
def errorsNew (text : String) : Error := ⟨text⟩

/-- The call `fmt.Errorf("%w: %s", err, text)`.  It never returns nil: for a nil `err`
the verb prints as `%!w(<nil>)`. -/
def errorfWrap (err : Option Error) (text : String) : Error :=
  match err with
  | some e => ⟨e.msg ++ ": " ++ text⟩
  | none => ⟨"%!w(<nil>): " ++ text⟩

/-! ## model.go: the String methods -/

/-- String of `ZoneUpdateResponse`: the JSON of a copy that keeps errors, warnings,
status and response and leaves the metadata at its zero value; the error of
`json.Marshal` is dropped, so a failed encoding gives the empty string. -/
def ZoneUpdateResponse.String (lib : Stdlib) (z : ZoneUpdateResponse) : String :=
  let o := lib.marshalZoneUpdateResponse
    { Errors := z.Errors, Warnings := z.Warnings, Status := z.Status, Response := z.Response }
  o.getD ""

/-- String of `ZoneConfigsFindResponse`, built the same way. -/
def ZoneConfigsFindResponse.String (lib : Stdlib) (z : ZoneConfigsFindResponse) : String :=
  let o := lib.marshalZoneConfigsFindResponse
    { Errors := z.Errors, Warnings := z.Warnings, Status := z.Status, Response := z.Response }
  o.getD ""

/-! ## client.go -/

/-- The constant defaultBaseURL. -/
def defaultBaseURL : String := "https://secure.hosting.de/api/dns/v1/json"

/-- toUnreadableBodyMessage of `client.go`.  When the body decodes to a nil pointer the
read of `baseResp.Errors` is a nil dereference. -/
def toUnreadableBodyMessage (lib : Stdlib) (uri : String) (rawBody : String) : Go String :=
  let fallback : String :=
    "the request " ++ uri ++ " sent a response with a body which is an invalid format: "
      ++ lib.quote rawBody
  match lib.unmarshalBaseResponse rawBody with
  | Decoded.failure => Go.ret fallback
  | Decoded.null => Go.panic Panic.nilBaseResp
  | Decoded.value baseResp =>
    if baseResp.Errors.length > 0 then
      match lib.marshalBaseResponse baseResp with
      | some clean =>
        Go.ret ("the request " ++ uri ++ " sent a response with errors: " ++ lib.quote clean)
      | none => Go.ret fallback
    else
      Go.ret fallback

/-- What happens during one call of `post`, step by step: the errors of `json.Marshal`,
`http.NewRequest` and `httpClient.Do` (nil when the step succeeds), the bytes
`ioutil.ReadAll` returned with its error, and the result of
`json.Unmarshal(content, response)` on a zero response value. -/
structure Exchange (ρ : Type) where
  marshalErr : Option Error := none
  newRequestErr : Option Error := none
  doErr : Option Error := none
  content : String := ""
  readErr : Option Error := none
  decoded : Except Error ρ

/-- The configuration of the solver a challenge carries (`hostingdeDNSProviderConfig`). -/
structure hostingdeDNSProviderConfig where
  ZoneName : String := ""
  TTL : Int := 0
  SecretName : String := ""
  deriving DecidableEq, Repr

/-- The world one call of `Present` or `CleanUp` runs in.

* `lib`: the library functions.
* `unmarshalConfig raw`: `json.Unmarshal(cfgJSON.Raw, &cfg)` on a zero `cfg`: the value it
  leaves in `cfg` (partly decoded when it fails) and its error.
* `getSecret namespace name`: `Secrets(namespace).Get(ctx, name, ...)`, giving `sec.Data`.
* `find n request`: the exchange of the `n`-th call (from 0) of `post` for a zone
  lookup during the call, `update request` the exchange of the zone update.
* `budget`: how many times `NextBackOff` of the exponential policy returns an interval
  before its elapsed-time limit (`MaxElapsedTime`) makes it return `Stop`.
* `stopErr err`: the error `backoff.Retry` reports when it stops on a cancelled
  context after the operation returned `err` (that error itself, or `ctx.Err()`,
  depending on the version of the library). -/
structure Env where
  lib : Stdlib
  unmarshalConfig : String → hostingdeDNSProviderConfig × Option Error
  getSecret : String → String → Except Error (List (String × String))
  find : Nat → ZoneConfigsFindRequest → Exchange ZoneConfigsFindResponse
  update : ZoneUpdateRequest → Exchange ZoneUpdateResponse
  budget : Nat
  stopErr : Error → Error

/-- post of `client.go`, on the exchange `http request` that the request goes through:
the error, or the content together with the decoded response. -/
def post {α ρ : Type} (lib : Stdlib) (http : α → Exchange ρ) (uri : String) (request : α) :
    Go (Except Error (String × ρ)) :=
  let x := http request
  match x.marshalErr with
  | some err => Go.ret (Except.error err)
  | none =>
  match x.newRequestErr with
  | some err => Go.ret (Except.error err)
  | none =>
  match x.doErr with
  | some err => Go.ret (Except.error ⟨"error querying API: " ++ err.msg⟩)
  | none =>
  match x.readErr with
  | some _ =>
    match toUnreadableBodyMessage lib uri x.content with
    | Go.panic r => Go.panic r
    | Go.ret text => Go.ret (Except.error (errorsNew text))
  | none =>
  match x.decoded with
  | Except.error err =>
    match toUnreadableBodyMessage lib uri x.content with
    | Go.panic r => Go.panic r
    | Go.ret text => Go.ret (Except.error (errorfWrap (some err) text))
  | Except.ok response => Go.ret (Except.ok (x.content, response))

/-- listZoneConfigs of `client.go`; `n` counts the lookups made so far. -/
def listZoneConfigs (env : Env) (n : Nat) (findRequest : ZoneConfigsFindRequest) :
    Go (Option ZoneConfigsFindResponse × Option Error) :=
  let uri := defaultBaseURL ++ "/zoneConfigsFind"
  match post env.lib (env.find n) uri findRequest with
  | Go.panic r => Go.panic r
  | Go.ret (Except.error err) => Go.ret (none, some err)
  | Go.ret (Except.ok (_, findResponse)) =>
    let cacheableResponse : ZoneConfigsFindResponse :=
      { Errors := findResponse.Errors, Warnings := findResponse.Warnings,
        Status := findResponse.Status, Response := findResponse.Response }
    if findResponse.Response.Data.length = 0 then
      let cacheableResponse : ZoneConfigsFindResponse :=
        { cacheableResponse with Warnings := cacheableResponse.Warnings ++ ["empty result"] }
      match toUnreadableBodyMessage env.lib uri (cacheableResponse.String env.lib) with
      | Go.panic r => Go.panic r
      | Go.ret text => Go.ret (none, some (errorfWrap none text))
    else if findResponse.Status ≠ "success" ∧ findResponse.Status ≠ "pending" then
      let cacheableResponse : ZoneConfigsFindResponse :=
        { cacheableResponse with
          Warnings := cacheableResponse.Warnings ++ ["invalid zoneConfigsFindResponse status"] }
      match toUnreadableBodyMessage env.lib uri (cacheableResponse.String env.lib) with
      | Go.panic r => Go.panic r
      | Go.ret text => Go.ret (some findResponse, some (errorsNew text))
    else
      Go.ret (some findResponse, none)

/-- updateZone of `client.go`. -/
def updateZone (env : Env) (updateRequest : ZoneUpdateRequest) :
    Go (Option ZoneUpdateResponse × Option Error) :=
  let uri := defaultBaseURL ++ "/zoneUpdate"
  match post env.lib env.update uri updateRequest with
  | Go.panic r => Go.panic r
  | Go.ret (Except.error err) => Go.ret (none, some err)
  | Go.ret (Except.ok (_, updateResponse)) =>
    let cacheableResponse : ZoneUpdateResponse :=
      { Errors := updateResponse.Errors,
        Warnings := updateResponse.Warnings ++ ["invalid updateResponse status"],
        Status := updateResponse.Status, Response := updateResponse.Response }
    if updateResponse.Status ≠ "success" ∧ updateResponse.Status ≠ "pending" then
      match toUnreadableBodyMessage env.lib uri (cacheableResponse.String env.lib) with
      | Go.panic r => Go.panic r
      | Go.ret text => Go.ret (none, some (errorsNew text))
    else
      Go.ret (some updateResponse, none)

/-- The variables the closure `operation` of getZone shares with its caller: whether
`cancel()` has run, the captured `zoneConfig`, and (ghost) the lookups made so far. -/
structure RetryState where
  cancelled : Bool := false
  zoneConfig : Option ZoneConfig := none
  attempts : Nat := 0
  deriving DecidableEq, Repr

/-- The closure `operation` of getZone.  The reads of `findResponse.Response.Data[0]`
are checked: a nil `findResponse` or an empty list is a panic. -/
def operation (env : Env) (findRequest : ZoneConfigsFindRequest) (s : RetryState) :
    RetryState × Go (Option Error) :=
  let n := s.attempts
  let s : RetryState := { s with attempts := n + 1 }
  match listZoneConfigs env n findRequest with
  | Go.panic r => (s, Go.panic r)
  | Go.ret (_, some err) => ({ s with cancelled := true }, Go.ret (some err))
  | Go.ret (none, none) => (s, Go.panic Panic.nilFindResponse)
  | Go.ret (some findResponse, none) =>
    match findResponse.Response.Data with
    | [] => (s, Go.panic Panic.indexOutOfRange)
    | zone :: _ =>
      if zone.Status ≠ "active" then
        (s, Go.ret (some ⟨"unexpected status: " ++ env.lib.quote zone.Status⟩))
      else
        ({ s with zoneConfig := some zone }, Go.ret none)

/-- Modelled from the spec: the loop of `backoff.Retry(operation, backoff.WithContext(bo, ctx))`,
code of the library github.com/cenkalti/backoff that is not under src/.  Each round runs
the operation; a nil error ends the loop; after an error the policy is asked for the
next interval, which is `Stop` when the context is cancelled or the elapsed-time budget
is used up, and the loop then ends with an error; otherwise it sleeps and goes round
again.  `budget` is the number of intervals the policy still grants.  (The operation
never returns a `*backoff.PermanentError`, and nothing but the operation cancels the
context.) -/
def Retry {σ : Type} (op : σ → σ × Go (Option Error)) (done : σ → Bool)
    (stopErr : Error → Error) : (budget : Nat) → σ → σ × Go (Option Error)
  | budget, s =>
    match op s with
    | (s1, Go.panic r) => (s1, Go.panic r)
    | (s1, Go.ret none) => (s1, Go.ret none)
    | (s1, Go.ret (some err)) =>
      if done s1 then (s1, Go.ret (some (stopErr err)))
      else
        match budget with
        | 0 => (s1, Go.ret (some err))
        | b + 1 => Retry op done stopErr b s1

/-- getZone of `client.go`: the outcome, and (ghost) the number of lookups made. -/
def getZone (env : Env) (findRequest : ZoneConfigsFindRequest) :
    Go (Option ZoneConfig × Option Error) × Nat :=
  match Retry (operation env findRequest) (fun s => s.cancelled) env.stopErr env.budget {} with
  | (s, Go.panic r) => (Go.panic r, s.attempts)
  | (s, Go.ret (some err)) => (Go.ret (none, some err), s.attempts)
  | (s, Go.ret none) => (Go.ret (s.zoneConfig, none), s.attempts)

/-! ## main.go: the solver -/

/-- The resolved configuration `Config`. -/
structure Config where
  APIKey : String := ""
  ZoneName : String := ""
  TTL : Int := 0
  deriving DecidableEq, Repr

/-- The fields of `v1alpha1.ChallengeRequest` the solver reads; `Config` is the raw
JSON of the `*extapi.JSON`, `none` for a nil pointer. -/
structure ChallengeRequest where
  ResourceNamespace : String := ""
  ResolvedZone : String := ""
  ResolvedFQDN : String := ""
  Key : String := ""
  Config : Option String := none
  deriving DecidableEq, Repr

/-- A Go `map[string]string` that is not nil, as an association list with one pair
per key. -/
abbrev StringMap := List (String × String)

/-- The read `m[k]`: the zero value `""` for a missing key. -/
def mapGet (m : StringMap) (k : String) : String :=
  match m.lookup k with
  | some v => v
  | none => ""

/-- The builtin `delete(m, k)`. -/
def mapDelete (m : StringMap) (k : String) : StringMap :=
  m.filter (fun p => p.1 ≠ k)

/-- The assignment `m[k] = v`. -/
def mapSet (m : StringMap) (k v : String) : StringMap :=
  (k, v) :: mapDelete m k

/-- The state of a `hostingdeDNSProviderSolver` on which `Initialize` has run: `client`
and `httpClient` are set (they are what `Env` answers for) and `recordIDs` is a map;
`config` is the pointer the last `Present` stored, nil before. -/
structure hostingdeDNSProviderSolver where
  config : Option Config := none
  recordIDs : StringMap := []
  deriving DecidableEq, Repr

/-- Initialize of `main.go`, when `kubernetes.NewForConfig` succeeds: it stores the
clients and a new empty map, and leaves `config` as it is. -/
def Initialize (c : hostingdeDNSProviderSolver) : hostingdeDNSProviderSolver :=
  { c with recordIDs := [] }

/-- The function `strings.ToLower` on valid UTF-8: a string of ASCII characters only has
its letters `A`..`Z` shifted, any other string is mapped through `unicode.ToLower`. -/
def ToLower (lib : Stdlib) (s : String) : String :=
  if s.data.all (fun ch => ch.val < 128) then
    ⟨s.data.map (fun ch => if 'A' ≤ ch ∧ ch ≤ 'Z' then Char.ofNat (ch.toNat + 32) else ch)⟩
  else
    ⟨s.data.map lib.unicodeToLower⟩

/-- loadConfig of `main.go`. -/
def loadConfig (env : Env) (cfgJSON : Option String) :
    hostingdeDNSProviderConfig × Option Error :=
  match cfgJSON with
  | none => ({}, none)
  | some raw =>
    match env.unmarshalConfig raw with
    | (cfg, some err) => (cfg, some ⟨"error decoding solver config: " ++ err.msg⟩)
    | (cfg, none) => (cfg, none)

/-- stringFromSecretData of `main.go`. -/
def stringFromSecretData (env : Env) (secretData : List (String × String)) (key : String) :
    String × Option Error :=
  match secretData.lookup key with
  | none => ("", some ⟨"key " ++ env.lib.quote key ++ " not found in secret data"⟩)
  | some data => (data, none)

/-- clientConfig of `main.go`. -/
def clientConfig (env : Env) (ch : ChallengeRequest) : Option Config × Option Error :=
  match loadConfig env ch.Config with
  | (_, some err) => (none, some err)
  | (cfg, none) =>
    let secretName := cfg.SecretName
    match env.getSecret ch.ResourceNamespace secretName with
    | Except.error err =>
      (none, some ⟨"unable to get secret `" ++ secretName ++ "/" ++ ch.ResourceNamespace
        ++ "`; " ++ err.msg⟩)
    | Except.ok data =>
      match stringFromSecretData env data "api-key" with
      | (_, some err) =>
        (none, some ⟨"unable to get api-key from secret `" ++ secretName ++ "/"
          ++ ch.ResourceNamespace ++ "`; " ++ err.msg⟩)
      | (apiKey, none) =>
        (some { ZoneName := cfg.ZoneName, TTL := cfg.TTL, APIKey := apiKey }, none)

/-- One call of `post` made by the solver, with the request it was given. -/
inductive Call where
  | find (request : ZoneConfigsFindRequest)
  | update (request : ZoneUpdateRequest)
  deriving DecidableEq, Repr

/-- What a call of `Present` or `CleanUp` leaves: the solver, the outcome (the returned
error, or a panic), and (ghost) the calls of `post` it made, in order. -/
structure Done where
  solver : hostingdeDNSProviderSolver
  result : Go (Option Error)
  calls : List Call
  deriving DecidableEq, Repr

/-- The loop of `Present` over the records of the response. -/
def registerRecords (lib : Stdlib) (fqdn value : String) (records : List DNSRecord)
    (recordIDs : StringMap) : StringMap :=
  records.foldl
    (fun m record =>
      if record.Name = ToLower lib (UnFqdn fqdn) ∧ record.Content = "\"" ++ value ++ "\"" then
        mapSet m fqdn record.ID
      else m)
    recordIDs

/-- Present of `main.go`. -/
def Present (env : Env) (c : hostingdeDNSProviderSolver) (ch : ChallengeRequest) : Done :=
  match clientConfig env ch with
  | (config, some err) =>
    { solver := { c with config := config },
      result := Go.ret
        (some ⟨"unable to get secret `" ++ ch.ResourceNamespace ++ "`; " ++ err.msg⟩),
      calls := [] }
  | (none, none) =>
    { solver := { c with config := none }, result := Go.panic Panic.nilConfig, calls := [] }
  | (some config, none) =>
    let c : hostingdeDNSProviderSolver := { c with config := some config }
    let fqdn := ch.ResolvedFQDN
    let value := ch.Key
    let zonesFind : ZoneConfigsFindRequest :=
      { Filter := { Field := "zoneName", Value := config.ZoneName }, Limit := 1, Page := 1,
        AuthToken := config.APIKey }
    match getZone env zonesFind with
    | (Go.panic r, n) =>
      { solver := c, result := Go.panic r, calls := List.replicate n (Call.find zonesFind) }
    | (Go.ret (_, some err), n) =>
      { solver := c, result := Go.ret (some ⟨"hostingde: " ++ err.msg⟩),
        calls := List.replicate n (Call.find zonesFind) }
    | (Go.ret (none, none), n) =>
      { solver := c, result := Go.panic Panic.nilZoneConfig,
        calls := List.replicate n (Call.find zonesFind) }
    | (Go.ret (some zoneConfig, none), n) =>
      let zoneConfig : ZoneConfig := { zoneConfig with Name := config.ZoneName }
      let rec_ : List DNSRecord :=
        [{ Type_ := "TXT", Name := UnFqdn fqdn, Content := value, TTL := config.TTL }]
      let req : ZoneUpdateRequest :=
        { ZoneConfig := zoneConfig, RecordsToAdd := rec_, AuthToken := config.APIKey }
      let calls := List.replicate n (Call.find zonesFind) ++ [Call.update req]
      match updateZone env req with
      | Go.panic r => { solver := c, result := Go.panic r, calls := calls }
      | Go.ret (_, some err) =>
        { solver := c, result := Go.ret (some ⟨"hostingde: " ++ err.msg⟩), calls := calls }
      | Go.ret (none, none) => { solver := c, result := Go.panic Panic.nilResp, calls := calls }
      | Go.ret (some resp, none) =>
        let c : hostingdeDNSProviderSolver :=
          { c with
            recordIDs := registerRecords env.lib fqdn value resp.Response.Records c.recordIDs }
        if mapGet c.recordIDs fqdn = "" then
          { solver := c,
            result := Go.ret
              (some ⟨"hostingde: error getting ID of just created record, for domain "
                ++ ch.ResolvedFQDN⟩),
            calls := calls }
        else
          { solver := c, result := Go.ret none, calls := calls }

/-- CleanUp of `main.go`.  It reads `c.config` without setting it: on a nil pointer the
read of `c.config.ZoneName` is a nil dereference. -/
def CleanUp (env : Env) (c : hostingdeDNSProviderSolver) (ch : ChallengeRequest) : Done :=
  let fqdn := ch.ResolvedFQDN
  let value := ch.Key
  let rec_ : List DNSRecord :=
    [{ Type_ := "TXT", Name := UnFqdn fqdn, Content := "\"" ++ value ++ "\"" }]
  match c.config with
  | none => { solver := c, result := Go.panic Panic.nilConfig, calls := [] }
  | some config =>
    let zonesFind : ZoneConfigsFindRequest :=
      { Filter := { Field := "zoneName", Value := config.ZoneName }, Limit := 1, Page := 1,
        AuthToken := config.APIKey }
    match getZone env zonesFind with
    | (Go.panic r, n) =>
      { solver := c, result := Go.panic r, calls := List.replicate n (Call.find zonesFind) }
    | (Go.ret (_, some err), n) =>
      { solver := c, result := Go.ret (some ⟨"hostingde: " ++ err.msg⟩),
        calls := List.replicate n (Call.find zonesFind) }
    | (Go.ret (none, none), n) =>
      { solver := c, result := Go.panic Panic.nilZoneConfig,
        calls := List.replicate n (Call.find zonesFind) }
    | (Go.ret (some zoneConfig, none), n) =>
      let zoneConfig : ZoneConfig := { zoneConfig with Name := config.ZoneName }
      let req : ZoneUpdateRequest :=
        { ZoneConfig := zoneConfig, RecordsToDelete := rec_, AuthToken := config.APIKey }
      let calls := List.replicate n (Call.find zonesFind) ++ [Call.update req]
      let c : hostingdeDNSProviderSolver := { c with recordIDs := mapDelete c.recordIDs fqdn }
      match updateZone env req with
      | Go.panic r => { solver := c, result := Go.panic r, calls := calls }
      | Go.ret (_, some err) =>
        { solver := c, result := Go.ret (some ⟨"hostingde: " ++ err.msg⟩), calls := calls }
      | Go.ret (_, none) => { solver := c, result := Go.ret none, calls := calls }

/-! ## Sample worlds for the worked examples -/

/-- A library for the examples: every encoding is "status " followed by the status, the
body "null" decodes to a nil pointer and no other body decodes as an envelope, `%q`
adds the quotes, and no code point is lowered. -/
def sampleLib : Stdlib where
  marshalZoneUpdateResponse := fun z => some ("status " ++ z.Status)
  marshalZoneConfigsFindResponse := fun z => some ("status " ++ z.Status)
  marshalBaseResponse := fun z => some ("status " ++ z.Status)
  unmarshalBaseResponse := fun body => if body = "null" then Decoded.null else Decoded.failure
  quote := fun text => "\"" ++ text ++ "\""
  unicodeToLower := fun ch => ch
  empty_fails := by decide
  update_object := by
    intro z s h
    have hs : s ≠ "null" := by
      intro hn
      subst hn
      have hd := congrArg String.data (Option.some.inj h)
      simp [String.data_append] at hd
    simp [hs]
  find_object := by
    intro z s h
    have hs : s ≠ "null" := by
      intro hn
      subst hn
      have hd := congrArg String.data (Option.some.inj h)
      simp [String.data_append] at hd
    simp [hs]

/-- A zone lookup answered with status "success" and one zone of the given status. -/
def zoneReply (status : String) (request : ZoneConfigsFindRequest) :
    Exchange ZoneConfigsFindResponse :=
  { decoded := Except.ok
      { Status := "success",
        Response := { Data := [{ ID := "zone-1", Status := status, Name := request.Filter.Value }] } } }

/-- A zone update answered with the given status and records. -/
def updateReply (status : String) (records : List DNSRecord) (request : ZoneUpdateRequest) :
    Exchange ZoneUpdateResponse :=
  { decoded := Except.ok
      { Status := status, Response := { Records := records, ZoneConfig := request.ZoneConfig } } }

/-- A world for the examples: the raw configuration of a challenge is read as its zone
name, the secret of a namespace holds the key "token-" followed by the namespace, and
the provider answers as `find` and `update` say. -/
def sampleEnv (find : Nat → ZoneConfigsFindRequest → Exchange ZoneConfigsFindResponse)
    (update : ZoneUpdateRequest → Exchange ZoneUpdateResponse) (budget : Nat) : Env where
  lib := sampleLib
  unmarshalConfig := fun raw => ({ ZoneName := raw, TTL := 120, SecretName := "dns" }, none)
  getSecret := fun namespace_ _ => Except.ok [("api-key", "token-" ++ namespace_)]
  find := find
  update := update
  budget := budget
  stopErr := fun err => err

/-- The challenge of the examples. -/
def sampleChallenge : ChallengeRequest :=
  { ResourceNamespace := "default", ResolvedZone := "example.com.",
    ResolvedFQDN := "_acme-challenge.example.com.", Key := "abc123",
    Config := some "example.com" }

/-- The record the provider returns for the challenge of the examples. -/
def sampleRecord : DNSRecord :=
  { ID := "rec-1", Name := "_acme-challenge.example.com", Type_ := "TXT",
    Content := "\"abc123\"", TTL := 120 }

/-- A zone lookup answered with the given status and no zone at all. -/
def emptyReply (status : String) : Exchange ZoneConfigsFindResponse :=
  { decoded := Except.ok { Status := status, Response := { Data := [] } } }

/-- A lookup that fails in `httpClient.Do`. -/
def refusedReply : Exchange ZoneConfigsFindResponse :=
  { doErr := some ⟨"connection refused"⟩, decoded := Except.error ⟨"no body"⟩ }

/-- The world of the examples in which the zone is active from the third lookup on and
the update returns the record of the challenge. -/
def sampleWorld : Env :=
  sampleEnv (fun n => zoneReply (if n < 2 then "blocked" else "active"))
    (updateReply "success" [sampleRecord]) 5

/-- The update request Present sends in the sample world. -/
def sampleUpdate : ZoneUpdateRequest :=
  { AuthToken := "token-default",
    ZoneConfig := { ID := "zone-1", Status := "active", Name := "example.com" },
    RecordsToAdd :=
      [{ Type_ := "TXT", Name := "_acme-challenge.example.com", Content := "abc123", TTL := 120 }] }

/-- The challenge of a name that no Present has registered. -/
def otherChallenge : ChallengeRequest :=
  { ResourceNamespace := "default", ResolvedZone := "example.com.",
    ResolvedFQDN := "_acme-challenge.www.example.com.", Key := "k2",
    Config := some "example.com" }

/-- The delete request CleanUp sends for `otherChallenge` in the sample world. -/
def otherDelete : ZoneUpdateRequest :=
  { AuthToken := "token-default",
    ZoneConfig := { ID := "zone-1", Status := "active", Name := "example.com" },
    RecordsToDelete :=
      [{ Type_ := "TXT", Name := "_acme-challenge.www.example.com", Content := "\"k2\"" }] }

/-- Attempt `n` of a lookup succeeds with a first zone that is not "active": the case
getZone retries. -/
def Retryable (env : Env) (findRequest : ZoneConfigsFindRequest) (n : Nat) : Prop :=
  ∃ r zone rest, listZoneConfigs env n findRequest = Go.ret (some r, none) ∧
    r.Response.Data = zone :: rest ∧ zone.Status ≠ "active"

/-! ## The rendering of a diagnostic never panics on a String projection -/

theorem toUnreadable_find (lib : Stdlib) (uri : String) (z : ZoneConfigsFindResponse) :
    ∃ text, toUnreadableBodyMessage lib uri (z.String lib) = Go.ret text := by
  have hnull : lib.unmarshalBaseResponse (z.String lib) ≠ Decoded.null := by
    unfold ZoneConfigsFindResponse.String
    cases h : lib.marshalZoneConfigsFindResponse
      { Errors := z.Errors, Warnings := z.Warnings, Status := z.Status, Response := z.Response } with
    | none => simp [lib.empty_fails]
    | some o => simpa using lib.find_object _ _ h
  unfold toUnreadableBodyMessage
  cases hd : lib.unmarshalBaseResponse (z.String lib) with
  | failure => exact ⟨_, rfl⟩
  | null => exact absurd hd hnull
  | value b =>
    dsimp only
    split
    · split
      · exact ⟨_, rfl⟩
      · exact ⟨_, rfl⟩
    · exact ⟨_, rfl⟩

theorem toUnreadable_update (lib : Stdlib) (uri : String) (z : ZoneUpdateResponse) :
    ∃ text, toUnreadableBodyMessage lib uri (z.String lib) = Go.ret text := by
  have hnull : lib.unmarshalBaseResponse (z.String lib) ≠ Decoded.null := by
    unfold ZoneUpdateResponse.String
    cases h : lib.marshalZoneUpdateResponse
      { Errors := z.Errors, Warnings := z.Warnings, Status := z.Status, Response := z.Response } with
    | none => simp [lib.empty_fails]
    | some o => simpa using lib.update_object _ _ h
  unfold toUnreadableBodyMessage
  cases hd : lib.unmarshalBaseResponse (z.String lib) with
  | failure => exact ⟨_, rfl⟩
  | null => exact absurd hd hnull
  | value b =>
    dsimp only
    split
    · split
      · exact ⟨_, rfl⟩
      · exact ⟨_, rfl⟩
    · exact ⟨_, rfl⟩

/-! ## UnFqdn -/

/-- C8: UnFqdn strips exactly one trailing dot, `UnFqdn (s ++ ".") = s`, and returns a
string that is empty or does not end in a dot unchanged; in particular it maps
"example.com." to "example.com" and leaves "example.com" as it is. -/
theorem UnFqdn_strips_one_trailing_dot (s : String) :
    UnFqdn (s ++ ".") = s ∧
    ((s = "" ∨ s.data.getLast? ≠ some '.') → UnFqdn s = s) ∧
    UnFqdn "example.com." = "example.com" ∧ UnFqdn "example.com" = "example.com" := by
  refine ⟨?_, ?_, by decide, by decide⟩
  · have hd : (s ++ ".").data = s.data ++ ['.'] := by
      simp [String.data_append]
    unfold UnFqdn
    simp only [hd]
    have hlen : (s.data ++ ['.']).length - 1 = s.data.length := by simp
    rw [hlen]
    have hget : (s.data ++ ['.']).get? s.data.length = some '.' := by
      simp
    have htake : (s.data ++ ['.']).take s.data.length = s.data := by
      simp
    simp [hget, htake]
  · intro h
    unfold UnFqdn
    have hlast : s.data.get? (s.data.length - 1) = s.data.getLast? := by
      rw [List.getLast?_eq_getElem?]
      simp
    rcases h with h | h
    · subst h; decide
    · simp only [hlast]
      simp [h]

/-- Witness of C8 at "a.b": the string does not end in a dot and is returned as it is,
and with a dot appended the dot is cut. -/
theorem UnFqdn_strips_one_trailing_dot_witness :
    ("a.b" = "" ∨ "a.b".data.getLast? ≠ some '.') ∧ UnFqdn "a.b" = "a.b" ∧
      UnFqdn ("a.b" ++ ".") = "a.b" :=
  ⟨Or.inr (by decide),
    (UnFqdn_strips_one_trailing_dot "a.b").2.1 (Or.inr (by decide)),
    (UnFqdn_strips_one_trailing_dot "a.b").1⟩

/-! ## The String projections -/

/-- C9: two ZoneUpdateResponse values, and two ZoneConfigsFindResponse values, with equal
errors, warnings, status and response payload have the same String, whatever their
transaction-identifier metadata are. -/
theorem String_ignores_metadata (lib : Stdlib) (a b : ZoneUpdateResponse)
    (x y : ZoneConfigsFindResponse)
    (hab : a.Errors = b.Errors ∧ a.Warnings = b.Warnings ∧ a.Status = b.Status ∧
      a.Response = b.Response)
    (hxy : x.Errors = y.Errors ∧ x.Warnings = y.Warnings ∧ x.Status = y.Status ∧
      x.Response = y.Response) :
    a.String lib = b.String lib ∧ x.String lib = y.String lib := by
  obtain ⟨h1, h2, h3, h4⟩ := hab
  obtain ⟨k1, k2, k3, k4⟩ := hxy
  unfold ZoneUpdateResponse.String ZoneConfigsFindResponse.String
  rw [h1, h2, h3, h4, k1, k2, k3, k4]
  exact ⟨rfl, rfl⟩

/-- Witness of C9: responses that differ in both transaction identifiers only. -/
theorem String_ignores_metadata_witness :
    (({ Status := "success", Warnings := ["w"],
        Metadata := { ClientTransactionID := "c-1", ServerTransactionID := "s-1" } } :
        ZoneUpdateResponse).Metadata
      ≠ ({ Status := "success", Warnings := ["w"],
           Metadata := { ClientTransactionID := "c-2", ServerTransactionID := "s-2" } } :
        ZoneUpdateResponse).Metadata) ∧
    (({ Status := "success", Warnings := ["w"],
        Metadata := { ClientTransactionID := "c-1", ServerTransactionID := "s-1" } } :
        ZoneUpdateResponse).String sampleLib
      = ({ Status := "success", Warnings := ["w"],
           Metadata := { ClientTransactionID := "c-2", ServerTransactionID := "s-2" } } :
        ZoneUpdateResponse).String sampleLib) ∧
    (({ Status := "pending",
        Metadata := { ClientTransactionID := "c-1", ServerTransactionID := "s-1" } } :
        ZoneConfigsFindResponse).String sampleLib
      = ({ Status := "pending",
           Metadata := { ClientTransactionID := "c-2", ServerTransactionID := "s-2" } } :
        ZoneConfigsFindResponse).String sampleLib) :=
  ⟨by decide,
    String_ignores_metadata sampleLib _ _ _ _ ⟨rfl, rfl, rfl, rfl⟩ ⟨rfl, rfl, rfl, rfl⟩⟩


/-! ## listZoneConfigs and updateZone -/

/-- C1: when `post` decodes a zone-lookup response whose data list is empty,
listZoneConfigs returns a non-nil error and a nil response, whatever the status of the
response is ("success" and "pending" included). -/
theorem listZoneConfigs_empty_fails (env : Env) (n : Nat)
    (findRequest : ZoneConfigsFindRequest) (content : String)
    (findResponse : ZoneConfigsFindResponse)
    (hpost : post env.lib (env.find n) (defaultBaseURL ++ "/zoneConfigsFind") findRequest
      = Go.ret (Except.ok (content, findResponse)))
    (hempty : findResponse.Response.Data = []) :
    ∃ err, listZoneConfigs env n findRequest = Go.ret (none, some err) := by
  unfold listZoneConfigs
  simp only [hpost, hempty, List.length_nil, if_true]
  obtain ⟨text, ht⟩ := toUnreadable_find env.lib (defaultBaseURL ++ "/zoneConfigsFind")
    { Errors := findResponse.Errors, Warnings := findResponse.Warnings ++ ["empty result"],
      Status := findResponse.Status, Response := findResponse.Response }
  rw [ht]
  exact ⟨_, rfl⟩

/-- Witness of C1: an empty answer of status "success". -/
theorem listZoneConfigs_empty_fails_witness :
    post sampleLib (fun _ => emptyReply "success") (defaultBaseURL ++ "/zoneConfigsFind")
        ({} : ZoneConfigsFindRequest)
      = Go.ret (Except.ok ("", { Status := "success", Response := { Data := [] } })) ∧
    ∃ err, listZoneConfigs
        (sampleEnv (fun _ _ => emptyReply "success") (updateReply "success" []) 5) 0 {}
      = Go.ret (none, some err) :=
  ⟨by rfl,
    listZoneConfigs_empty_fails
      (sampleEnv (fun _ _ => emptyReply "success") (updateReply "success" []) 5) 0 {} ""
      { Status := "success", Response := { Data := [] } } (by rfl) (by rfl)⟩

/-- C2: when `post` decodes a zone-update response, updateZone returns an error exactly
when the status is neither "success" nor "pending", and otherwise returns the decoded
response as it is; and, independently of the update, when `post` decodes a zone-lookup
response with a non-empty data list, listZoneConfigs returns an error exactly when the
status is neither "success" nor "pending", and otherwise returns the decoded response. -/
theorem updateZone_fails_iff_bad_status (env : Env) :
    (∀ (updateRequest : ZoneUpdateRequest) (content : String)
        (updateResponse : ZoneUpdateResponse),
      post env.lib env.update (defaultBaseURL ++ "/zoneUpdate") updateRequest
        = Go.ret (Except.ok (content, updateResponse)) →
      ((∃ resp err, updateZone env updateRequest = Go.ret (resp, some err)) ↔
        (updateResponse.Status ≠ "success" ∧ updateResponse.Status ≠ "pending")) ∧
      (¬ (updateResponse.Status ≠ "success" ∧ updateResponse.Status ≠ "pending") →
        updateZone env updateRequest = Go.ret (some updateResponse, none))) ∧
    (∀ (n : Nat) (findRequest : ZoneConfigsFindRequest) (findContent : String)
        (findResponse : ZoneConfigsFindResponse),
      post env.lib (env.find n) (defaultBaseURL ++ "/zoneConfigsFind") findRequest
        = Go.ret (Except.ok (findContent, findResponse)) →
      findResponse.Response.Data ≠ [] →
      ((∃ resp err, listZoneConfigs env n findRequest = Go.ret (resp, some err)) ↔
        (findResponse.Status ≠ "success" ∧ findResponse.Status ≠ "pending")) ∧
      (¬ (findResponse.Status ≠ "success" ∧ findResponse.Status ≠ "pending") →
        listZoneConfigs env n findRequest = Go.ret (some findResponse, none))) := by
  constructor
  · intro updateRequest content updateResponse hupdate
    have hu : ¬ (updateResponse.Status ≠ "success" ∧ updateResponse.Status ≠ "pending") →
        updateZone env updateRequest = Go.ret (some updateResponse, none) := by
      intro hs
      unfold updateZone
      simp only [hupdate]
      rw [if_neg hs]
    refine ⟨⟨?_, ?_⟩, hu⟩
    · rintro ⟨resp, err, h⟩
      by_contra hs
      rw [hu hs] at h
      cases h
    · intro hs
      obtain ⟨text, ht⟩ := toUnreadable_update env.lib (defaultBaseURL ++ "/zoneUpdate")
        { Errors := updateResponse.Errors,
          Warnings := updateResponse.Warnings ++ ["invalid updateResponse status"],
          Status := updateResponse.Status, Response := updateResponse.Response }
      refine ⟨none, errorsNew text, ?_⟩
      unfold updateZone
      simp only [hupdate]
      rw [if_pos hs, ht]
  · intro n findRequest findContent findResponse hfind hdata
    have hlen : ¬ findResponse.Response.Data.length = 0 := by
      intro h
      exact hdata (List.length_eq_zero.mp h)
    have hf : ¬ (findResponse.Status ≠ "success" ∧ findResponse.Status ≠ "pending") →
        listZoneConfigs env n findRequest = Go.ret (some findResponse, none) := by
      intro hs
      unfold listZoneConfigs
      simp only [hfind]
      rw [if_neg hlen, if_neg hs]
    refine ⟨⟨?_, ?_⟩, hf⟩
    · rintro ⟨resp, err, h⟩
      by_contra hs
      rw [hf hs] at h
      cases h
    · intro hs
      obtain ⟨text, ht⟩ := toUnreadable_find env.lib (defaultBaseURL ++ "/zoneConfigsFind")
        { Errors := findResponse.Errors,
          Warnings := findResponse.Warnings ++ ["invalid zoneConfigsFindResponse status"],
          Status := findResponse.Status, Response := findResponse.Response }
      refine ⟨some findResponse, errorsNew text, ?_⟩
      unfold listZoneConfigs
      simp only [hfind]
      rw [if_neg hlen, if_pos hs, ht]

/-- Witness of C2, in a world where no update is ever decoded and in one where no lookup
is: a lookup of status "failed" with one zone returns an error, and an update of status
"pending" returns its response. -/
theorem updateZone_fails_iff_bad_status_witness :
    (∃ resp err, listZoneConfigs
        (sampleEnv
          (fun _ _ => { decoded := Except.ok { Status := "failed", Response := { Data := [{}] } } })
          (fun _ => { doErr := some ⟨"connection refused"⟩, decoded := Except.error ⟨"no body"⟩ })
          5) 0 {}
      = Go.ret (resp, some err)) ∧
    updateZone (sampleEnv (fun _ _ => refusedReply) (updateReply "pending" [sampleRecord]) 5) {}
      = Go.ret (some { Status := "pending", Response := { Records := [sampleRecord] } }, none) :=
  ⟨((updateZone_fails_iff_bad_status
      (sampleEnv
        (fun _ _ => { decoded := Except.ok { Status := "failed", Response := { Data := [{}] } } })
        (fun _ => { doErr := some ⟨"connection refused"⟩, decoded := Except.error ⟨"no body"⟩ })
        5)).2 0 {} ""
      { Status := "failed", Response := { Data := [{}] } } (by rfl) (by decide)).1.2 (by decide),
   ((updateZone_fails_iff_bad_status
      (sampleEnv (fun _ _ => refusedReply) (updateReply "pending" [sampleRecord]) 5)).1 {} ""
      { Status := "pending", Response := { Records := [sampleRecord] } } (by rfl)).2 (by decide)⟩

/-! ## getZone -/

/-- A nil error of listZoneConfigs comes with a response whose data list is not empty. -/
theorem listZoneConfigs_ok_nonempty (env : Env) (n : Nat) (findRequest : ZoneConfigsFindRequest)
    (resp : Option ZoneConfigsFindResponse)
    (h : listZoneConfigs env n findRequest = Go.ret (resp, none)) :
    ∃ r, resp = some r ∧ r.Response.Data ≠ [] := by
  unfold listZoneConfigs at h
  dsimp only at h
  split at h
  · cases h
  · cases h
  · rename_i content findResponse hpost
    split at h
    · split at h <;> cases h
    · rename_i hlen
      split at h
      · split at h <;> cases h
      · cases h
        refine ⟨findResponse, rfl, ?_⟩
        intro hnil
        exact hlen (by rw [hnil]; rfl)

/-- The closure of getZone panics only when listZoneConfigs does, with the same panic. -/
theorem operation_panic (env : Env) (findRequest : ZoneConfigsFindRequest) (s : RetryState)
    (r : Panic) (h : (operation env findRequest s).2 = Go.panic r) :
    listZoneConfigs env s.attempts findRequest = Go.panic r := by
  unfold operation at h
  dsimp only at h
  split at h
  · rename_i r1 hl
    cases h
    exact hl
  · cases h
  · rename_i hl
    obtain ⟨r1, hr1, _⟩ := listZoneConfigs_ok_nonempty env _ _ _ hl
    cases hr1
  · rename_i findResponse hl
    obtain ⟨r1, hr1, hne⟩ := listZoneConfigs_ok_nonempty env _ _ _ hl
    cases hr1
    split at h
    · rename_i hd
      exact absurd hd hne
    · split at h <;> cases h

/-- A panic of the retry loop is a panic of one run of the operation. -/
theorem Retry_panic {σ : Type} (op : σ → σ × Go (Option Error)) (done : σ → Bool)
    (stopErr : Error → Error) (r : Panic) :
    ∀ (b : Nat) (s : σ), (Retry op done stopErr b s).2 = Go.panic r →
      ∃ s1, (op s1).2 = Go.panic r := by
  intro b
  induction b with
  | zero =>
    intro s h
    rw [Retry] at h
    rcases hres : op s with ⟨s1, out⟩
    rw [hres] at h
    rcases out with (_ | err) | r1
    · cases h
    · dsimp only at h
      split at h <;> cases h
    · exact ⟨s, by rw [hres]; exact h⟩
  | succ b ih =>
    intro s h
    rw [Retry] at h
    rcases hres : op s with ⟨s1, out⟩
    rw [hres] at h
    rcases out with (_ | err) | r1
    · cases h
    · dsimp only at h
      split at h
      · cases h
      · exact ih s1 h
    · exact ⟨s, by rw [hres]; exact h⟩

/-- C10: whenever listZoneConfigs returns a nil error its response is non-nil and has at
least one entry, so the reads of `findResponse.Response.Data[0]` in getZone are in
bounds and never go through a nil pointer: the closure of getZone panics only when
listZoneConfigs itself does, and getZone never ends in either of the two panics. -/
theorem getZone_reads_in_bounds (env : Env) (findRequest : ZoneConfigsFindRequest) :
    (∀ n resp, listZoneConfigs env n findRequest = Go.ret (resp, none) →
      ∃ r, resp = some r ∧ r.Response.Data ≠ []) ∧
    (∀ s r, (operation env findRequest s).2 = Go.panic r →
      listZoneConfigs env s.attempts findRequest = Go.panic r) ∧
    (∀ s, (operation env findRequest s).2 ≠ Go.panic Panic.nilFindResponse ∧
      (operation env findRequest s).2 ≠ Go.panic Panic.indexOutOfRange) ∧
    (getZone env findRequest).1 ≠ Go.panic Panic.nilFindResponse ∧
    (getZone env findRequest).1 ≠ Go.panic Panic.indexOutOfRange := by
  have hlist : ∀ n r, listZoneConfigs env n findRequest = Go.panic r → r = Panic.nilBaseResp := by
    intro n r h
    unfold listZoneConfigs at h
    have hmsg : ∀ uri body text, toUnreadableBodyMessage env.lib uri body = Go.panic text →
        text = Panic.nilBaseResp := by
      intro uri body text hm
      unfold toUnreadableBodyMessage at hm
      dsimp only at hm
      split at hm
      · cases hm
      · cases hm; rfl
      · split at hm
        · split at hm <;> cases hm
        · cases hm
    dsimp only at h
    split at h
    · rename_i r1 hpost
      cases h
      unfold post at hpost
      dsimp only at hpost
      split at hpost
      · cases hpost
      · split at hpost
        · cases hpost
        · split at hpost
          · cases hpost
          · split at hpost
            · split at hpost
              · rename_i hm
                cases hpost
                exact hmsg _ _ _ hm
              · cases hpost
            · split at hpost
              · split at hpost
                · rename_i hm
                  cases hpost
                  exact hmsg _ _ _ hm
                · cases hpost
              · cases hpost
    · cases h
    · split at h
      · split at h
        · rename_i hm
          cases h
          exact hmsg _ _ _ hm
        · cases h
      · split at h
        · split at h
          · rename_i hm
            cases h
            exact hmsg _ _ _ hm
          · cases h
        · cases h
  have hop : ∀ s, (operation env findRequest s).2 ≠ Go.panic Panic.nilFindResponse ∧
      (operation env findRequest s).2 ≠ Go.panic Panic.indexOutOfRange := by
    intro s
    constructor
    · intro h
      have := hlist _ _ (operation_panic env findRequest s _ h)
      cases this
    · intro h
      have := hlist _ _ (operation_panic env findRequest s _ h)
      cases this
  have hget : ∀ r, (getZone env findRequest).1 = Go.panic r →
      ∃ s1, (operation env findRequest s1).2 = Go.panic r := by
    intro r h
    unfold getZone at h
    split at h
    · rename_i s1 r1 hres
      cases h
      exact Retry_panic _ _ _ _ _ _ (by rw [hres])
    · cases h
    · cases h
  refine ⟨fun n resp h => listZoneConfigs_ok_nonempty env n findRequest resp h,
    fun s r h => operation_panic env findRequest s r h, hop, ?_, ?_⟩
  · intro h
    obtain ⟨s1, hs1⟩ := hget _ h
    exact (hop s1).1 hs1
  · intro h
    obtain ⟨s1, hs1⟩ := hget _ h
    exact (hop s1).2 hs1

/-- Witness of C10: the third lookup of the sample world returns a nil error, and its
response holds a zone. -/
theorem getZone_reads_in_bounds_witness :
    listZoneConfigs sampleWorld 2 {}
      = Go.ret (some { Status := "success",
                       Response := { Data := [{ ID := "zone-1", Status := "active", Name := "" }] } },
                none) ∧
    ∃ r, (some { Status := "success",
                 Response := { Data := [{ ID := "zone-1", Status := "active", Name := "" }] } }
            : Option ZoneConfigsFindResponse) = some r ∧ r.Response.Data ≠ [] :=
  ⟨by rfl, (getZone_reads_in_bounds sampleWorld {}).1 2 _ (by rfl)⟩

theorem operation_retryable (env : Env) (req : ZoneConfigsFindRequest) (s : RetryState)
    (h : Retryable env req s.attempts) :
    ∃ err, operation env req s = ({ s with attempts := s.attempts + 1 }, Go.ret (some err)) := by
  obtain ⟨r, zone, rest, hl, hd, hs⟩ := h
  unfold operation
  simp only [hl, hd]
  simp [hs]

theorem operation_active (env : Env) (req : ZoneConfigsFindRequest) (s : RetryState)
    (r : ZoneConfigsFindResponse) (zone : ZoneConfig) (rest : List ZoneConfig)
    (hl : listZoneConfigs env s.attempts req = Go.ret (some r, none))
    (hd : r.Response.Data = zone :: rest) (hs : zone.Status = "active") :
    operation env req s
      = ({ s with attempts := s.attempts + 1, zoneConfig := some zone }, Go.ret none) := by
  unfold operation
  simp only [hl, hd]
  simp [hs]

theorem operation_failed (env : Env) (req : ZoneConfigsFindRequest) (s : RetryState)
    (resp : Option ZoneConfigsFindResponse) (err : Error)
    (hl : listZoneConfigs env s.attempts req = Go.ret (resp, some err)) :
    operation env req s
      = ({ s with attempts := s.attempts + 1, cancelled := true }, Go.ret (some err)) := by
  unfold operation
  simp only [hl]

theorem Retry_unroll (env : Env) (req : ZoneConfigsFindRequest) (stopErr : Error → Error) :
    ∀ (k b : Nat) (zc : Option ZoneConfig) (a : Nat),
      (∀ i, i < k → Retryable env req (a + i)) → k ≤ b →
      Retry (operation env req) (fun s => s.cancelled) stopErr b
          { cancelled := false, zoneConfig := zc, attempts := a }
        = Retry (operation env req) (fun s => s.cancelled) stopErr (b - k)
            { cancelled := false, zoneConfig := zc, attempts := a + k } := by
  intro k
  induction k with
  | zero => intro b zc a _ _; simp
  | succ k ih =>
    intro b zc a hr hb
    obtain ⟨b, rfl⟩ : ∃ b1, b = b1 + 1 := ⟨b - 1, by omega⟩
    obtain ⟨err, hop⟩ := operation_retryable env req
      { cancelled := false, zoneConfig := zc, attempts := a } (by simpa using hr 0 (by omega))
    rw [Retry, hop]
    simp only [Bool.false_eq_true, if_false]
    rw [ih b zc (a + 1)
      (fun i hi => by
        have := hr (i + 1) (by omega)
        simpa [Nat.add_assoc, Nat.add_comm 1 i] using this) (by omega)]
    simp [Nat.add_assoc, Nat.add_comm 1 k]

theorem Retry_attempts (env : Env) (req : ZoneConfigsFindRequest) (stopErr : Error → Error) :
    ∀ (b : Nat) (s : RetryState),
      s.attempts + 1 ≤
        (Retry (operation env req) (fun s => s.cancelled) stopErr b s).1.attempts := by
  have hop : ∀ s : RetryState, (operation env req s).1.attempts = s.attempts + 1 := by
    intro s
    unfold operation
    dsimp only
    split
    · rfl
    · rfl
    · rfl
    · split
      · rfl
      · split <;> rfl
  intro b
  induction b with
  | zero =>
    intro s
    rw [Retry]
    have h1 := hop s
    rcases hres : operation env req s with ⟨s1, out⟩
    rw [hres] at h1
    rcases out with (_ | err) | r
    · simp at h1 ⊢; omega
    · simp only at h1 ⊢
      split <;> simp [h1]
    · simp at h1 ⊢; omega
  | succ b ih =>
    intro s
    rw [Retry]
    have h1 := hop s
    rcases hres : operation env req s with ⟨s1, out⟩
    rw [hres] at h1
    rcases out with (_ | err) | r
    · simp at h1 ⊢; omega
    · simp only at h1 ⊢
      split
      · simp [h1]
      · have := ih s1
        omega
    · simp at h1 ⊢; omega

/-- C3: let the lookups 0, ..., k-1 all succeed with a first zone that is not "active",
with the elapsed-time budget lasting that long.  If lookup k fails, getZone returns an
error after exactly k+1 lookups, whatever budget remains; if lookup k succeeds with an
"active" first zone, getZone returns exactly that zone after k+1 lookups; if lookup k
is again a success with a non-active first zone, another lookup follows as long as the
budget lasts, and getZone returns the error of lookup k once it is used up. -/
theorem getZone_stops_at_first_failure_or_active (env : Env)
    (findRequest : ZoneConfigsFindRequest) (k : Nat)
    (hearlier : ∀ i, i < k → Retryable env findRequest i) (hbudget : k ≤ env.budget) :
    (∀ resp err, listZoneConfigs env k findRequest = Go.ret (resp, some err) →
      getZone env findRequest = (Go.ret (none, some (env.stopErr err)), k + 1)) ∧
    (∀ r zone rest, listZoneConfigs env k findRequest = Go.ret (some r, none) →
      r.Response.Data = zone :: rest → zone.Status = "active" →
      getZone env findRequest = (Go.ret (some zone, none), k + 1)) ∧
    (Retryable env findRequest k → k < env.budget → k + 2 ≤ (getZone env findRequest).2) ∧
    (Retryable env findRequest k → k = env.budget →
      ∃ err, getZone env findRequest = (Go.ret (none, some err), k + 1)) := by
  have hunroll := Retry_unroll env findRequest env.stopErr k env.budget none 0
    (fun i hi => by simpa using hearlier i hi) hbudget
  simp only [Nat.zero_add] at hunroll
  have hstart : ({} : RetryState) = { cancelled := false, zoneConfig := none, attempts := 0 } :=
    rfl
  refine ⟨?_, ?_, ?_, ?_⟩
  · intro resp err hl
    have hop := operation_failed env findRequest
      { cancelled := false, zoneConfig := none, attempts := k } resp err hl
    unfold getZone
    rw [hstart, hunroll, Retry, hop]
    simp
  · intro r zone rest hl hd hs
    have hop := operation_active env findRequest
      { cancelled := false, zoneConfig := none, attempts := k } r zone rest hl hd hs
    unfold getZone
    rw [hstart, hunroll, Retry, hop]
  · intro hk hlt
    have hunroll2 := Retry_unroll env findRequest env.stopErr (k + 1) env.budget none 0
      (fun i hi => by
        rcases Nat.lt_succ_iff_lt_or_eq.mp hi with h | h
        · simpa using hearlier i h
        · subst h; simpa using hk) hlt
    simp only [Nat.zero_add] at hunroll2
    have hatt := Retry_attempts env findRequest env.stopErr (env.budget - (k + 1))
      { cancelled := false, zoneConfig := none, attempts := k + 1 }
    have hget : (getZone env findRequest).2 =
        (Retry (operation env findRequest) (fun s => s.cancelled) env.stopErr env.budget {}).1.attempts := by
      unfold getZone
      split <;> rename_i hres <;> rw [hres]
    rw [hget, hstart, hunroll2]
    exact hatt
  · intro hk hb
    obtain ⟨err, hop⟩ := operation_retryable env findRequest
      { cancelled := false, zoneConfig := none, attempts := k } hk
    refine ⟨err, ?_⟩
    unfold getZone
    rw [hstart, hunroll, Retry, hop]
    have hz : env.budget - k = 0 := by omega
    simp [hz]

/-- Witness of C3 in the sample world (two lookups see the zone "blocked"; budget 5):
the third lookup sees it "active" and getZone returns that zone after three lookups. -/
theorem getZone_stops_at_first_failure_or_active_witness :
    (∀ i, i < 2 → Retryable sampleWorld {} i) ∧ 2 ≤ sampleWorld.budget ∧
    getZone sampleWorld {}
      = (Go.ret (some { ID := "zone-1", Status := "active", Name := "" }, none), 3) :=
  have hearlier : ∀ i, i < 2 → Retryable sampleWorld {} i := fun i hi => by
    have hcases : i = 0 ∨ i = 1 := by omega
    rcases hcases with h | h <;> subst h <;>
      exact ⟨_, { ID := "zone-1", Status := "blocked", Name := "" }, [], by rfl, by rfl,
        by decide⟩
  ⟨hearlier, by decide,
    (getZone_stops_at_first_failure_or_active sampleWorld {} 2 hearlier (by decide)).2.1
      _ { ID := "zone-1", Status := "active", Name := "" } [] (by rfl) (by rfl) (by rfl)⟩

/-! ## The registry -/

theorem mapDelete_mapSet (m : StringMap) (k a : String) :
    mapDelete (mapSet m k a) k = mapDelete m k := by
  unfold mapSet mapDelete
  simp [List.filter_cons, List.filter_filter]

theorem mapSet_mapSet (m : StringMap) (k a b : String) :
    mapSet (mapSet m k a) k b = mapSet m k b := by
  have h := mapDelete_mapSet m k a
  unfold mapSet at h ⊢
  rw [h]

theorem lookup_mapDelete_self (m : StringMap) (k : String) :
    (mapDelete m k).lookup k = none := by
  unfold mapDelete
  induction m with
  | nil => rfl
  | cons p m ih =>
    obtain ⟨a, b⟩ := p
    rw [List.filter_cons]
    split
    · rename_i h
      have hne : a ≠ k := by simpa using h
      have hk : (k == a) = false := beq_false_of_ne (fun h1 => hne h1.symm)
      rw [List.lookup_cons, hk]
      exact ih
    · exact ih

theorem lookup_mapDelete_other (m : StringMap) (k g : String) (hg : g ≠ k) :
    (mapDelete m k).lookup g = m.lookup g := by
  unfold mapDelete
  induction m with
  | nil => rfl
  | cons p m ih =>
    obtain ⟨a, b⟩ := p
    rw [List.filter_cons]
    split
    · rw [List.lookup_cons, List.lookup_cons, ih]
    · rename_i h
      have hak : a = k := by simpa using h
      have hga : (g == a) = false := beq_false_of_ne (fun h1 => hg (h1.trans hak))
      rw [List.lookup_cons, hga]
      exact ih

/-- The loop of Present leaves the map as it is when no record matches, and otherwise
leaves it with the id of a matching record stored under the FQDN. -/
theorem registerRecords_spec (lib : Stdlib) (fqdn value : String) :
    ∀ (records : List DNSRecord) (m : StringMap),
      ((∀ record ∈ records, ¬ (record.Name = ToLower lib (UnFqdn fqdn) ∧
          record.Content = "\"" ++ value ++ "\"")) ∧
        registerRecords lib fqdn value records m = m) ∨
      (∃ record ∈ records, record.Name = ToLower lib (UnFqdn fqdn) ∧
          record.Content = "\"" ++ value ++ "\"" ∧
        registerRecords lib fqdn value records m = mapSet m fqdn record.ID) := by
  intro records
  induction records with
  | nil => intro m; left; exact ⟨by simp, rfl⟩
  | cons r rs ih =>
    intro m
    by_cases hr : r.Name = ToLower lib (UnFqdn fqdn) ∧ r.Content = "\"" ++ value ++ "\""
    · have hstep : registerRecords lib fqdn value (r :: rs) m
          = registerRecords lib fqdn value rs (mapSet m fqdn r.ID) := by
        unfold registerRecords
        rw [List.foldl_cons, if_pos hr]
      right
      rcases ih (mapSet m fqdn r.ID) with ⟨_, heq⟩ | ⟨r1, hmem, hn, hc, heq⟩
      · exact ⟨r, List.mem_cons_self _ _, hr.1, hr.2, by rw [hstep, heq]⟩
      · exact ⟨r1, List.mem_cons_of_mem _ hmem, hn, hc, by rw [hstep, heq, mapSet_mapSet]⟩
    · have hstep : registerRecords lib fqdn value (r :: rs) m
          = registerRecords lib fqdn value rs m := by
        unfold registerRecords
        rw [List.foldl_cons, if_neg hr]
      rcases ih m with ⟨hno, heq⟩ | ⟨r1, hmem, hn, hc, heq⟩
      · left
        refine ⟨?_, by rw [hstep, heq]⟩
        intro record hmem
        rcases List.mem_cons.mp hmem with h | h
        · subst h; exact hr
        · exact hno record h
      · right
        exact ⟨r1, List.mem_cons_of_mem _ hmem, hn, hc, by rw [hstep, heq]⟩

/-- What Present does to the registry: nothing, on every path on which the update does
not return a response; otherwise the loop over the records of that response. -/
theorem Present_registry (env : Env) (c : hostingdeDNSProviderSolver) (ch : ChallengeRequest) :
    ((Present env c ch).solver.recordIDs = c.recordIDs ∧
      ∀ req resp, Call.update req ∈ (Present env c ch).calls →
        updateZone env req ≠ Go.ret (some resp, none)) ∨
    (∃ req resp, (∀ other, Call.update other ∈ (Present env c ch).calls → other = req) ∧
      Call.update req ∈ (Present env c ch).calls ∧
      updateZone env req = Go.ret (some resp, none) ∧
      (Present env c ch).solver.recordIDs
        = registerRecords env.lib ch.ResolvedFQDN ch.Key resp.Response.Records c.recordIDs ∧
      (mapGet (Present env c ch).solver.recordIDs ch.ResolvedFQDN = "" →
        (Present env c ch).result
          = Go.ret (some ⟨"hostingde: error getting ID of just created record, for domain "
              ++ ch.ResolvedFQDN⟩))) := by
  unfold Present
  split
  · left; exact ⟨rfl, by simp⟩
  · left; exact ⟨rfl, by simp⟩
  · dsimp only
    split
    · left; exact ⟨rfl, by simp [List.mem_replicate]⟩
    · left; exact ⟨rfl, by simp [List.mem_replicate]⟩
    · left; exact ⟨rfl, by simp [List.mem_replicate]⟩
    · split
      · rename_i hu
        left
        refine ⟨rfl, ?_⟩
        intro req resp hmem
        simp [List.mem_replicate] at hmem
        subst hmem
        rw [hu]
        simp
      · rename_i hu
        left
        refine ⟨rfl, ?_⟩
        intro req resp hmem
        simp [List.mem_replicate] at hmem
        subst hmem
        rw [hu]
        simp
      · rename_i hu
        left
        refine ⟨rfl, ?_⟩
        intro req resp hmem
        simp [List.mem_replicate] at hmem
        subst hmem
        rw [hu]
        simp
      · rename_i resp hu
        right
        refine ⟨_, resp, ?_, ?_, hu, ?_, ?_⟩
        · intro other hmem
          split at hmem <;> simpa [List.mem_replicate] using hmem
        · split <;> simp
        · split <;> rfl
        · split
          · intro _; rfl
          · rename_i hc
            intro hget
            exact absurd hget hc

/-- C4: Present changes the registry only by storing, under the FQDN of the challenge,
the id of a record of the update response whose name is the lower-cased UnFqdn of the
FQDN and whose content is the key between double quotes; when no record of the response
satisfies both conditions the registry is left as it was.  For the FQDN
"_acme-challenge.example.com." and the key "abc123" the name and content looked for are
"_acme-challenge.example.com" and "\"abc123\"". -/
theorem Present_registers_only_matching (env : Env) (c : hostingdeDNSProviderSolver)
    (ch : ChallengeRequest) :
    ((Present env c ch).solver.recordIDs = c.recordIDs ∨
      ∃ req resp record, Call.update req ∈ (Present env c ch).calls ∧
        updateZone env req = Go.ret (some resp, none) ∧
        record ∈ resp.Response.Records ∧
        record.Name = ToLower env.lib (UnFqdn ch.ResolvedFQDN) ∧
        record.Content = "\"" ++ ch.Key ++ "\"" ∧
        (Present env c ch).solver.recordIDs = mapSet c.recordIDs ch.ResolvedFQDN record.ID) ∧
    (∀ req resp, Call.update req ∈ (Present env c ch).calls →
      updateZone env req = Go.ret (some resp, none) →
      (∀ record ∈ resp.Response.Records,
        ¬ (record.Name = ToLower env.lib (UnFqdn ch.ResolvedFQDN) ∧
          record.Content = "\"" ++ ch.Key ++ "\"")) →
      (Present env c ch).solver.recordIDs = c.recordIDs) ∧
    ToLower env.lib (UnFqdn "_acme-challenge.example.com.") = "_acme-challenge.example.com" ∧
    "\"" ++ "abc123" ++ "\"" = "\"abc123\"" := by
  refine ⟨?_, ?_, by rfl, by decide⟩
  · rcases Present_registry env c ch with ⟨h, _⟩ | ⟨req, resp, _, hmem, hu, hreg, _⟩
    · exact Or.inl h
    · rcases registerRecords_spec env.lib ch.ResolvedFQDN ch.Key resp.Response.Records
        c.recordIDs with ⟨_, heq⟩ | ⟨record, hrec, hn, hc, heq⟩
      · exact Or.inl (by rw [hreg, heq])
      · exact Or.inr ⟨req, resp, record, hmem, hu, hrec, hn, hc, by rw [hreg, heq]⟩
  · intro req resp hmem hu hno
    rcases Present_registry env c ch with ⟨h, _⟩ | ⟨req1, resp1, honly, _, hu1, hreg, _⟩
    · exact h
    · have hreq : req = req1 := honly req hmem
      subst hreq
      rw [hu] at hu1
      cases hu1
      rcases registerRecords_spec env.lib ch.ResolvedFQDN ch.Key resp.Response.Records
        c.recordIDs with ⟨_, heq⟩ | ⟨record, hrec, hn, hc, _⟩
      · rw [hreg, heq]
      · exact absurd ⟨hn, hc⟩ (hno record hrec)

/-- Witness of C4: the update returns one record with the right name and the key without
quotes; the registry stays empty. -/
theorem Present_registers_only_matching_witness :
    (∀ record ∈ [({ sampleRecord with Content := "abc123" } : DNSRecord)],
      ¬ (record.Name = ToLower sampleLib (UnFqdn sampleChallenge.ResolvedFQDN) ∧
        record.Content = "\"" ++ sampleChallenge.Key ++ "\"")) ∧
    (Present (sampleEnv (fun _ => zoneReply "active")
        (updateReply "success" [{ sampleRecord with Content := "abc123" }]) 5)
      { recordIDs := [] } sampleChallenge).solver.recordIDs = [] :=
  ⟨by decide,
    (Present_registers_only_matching
      (sampleEnv (fun _ => zoneReply "active")
        (updateReply "success" [{ sampleRecord with Content := "abc123" }]) 5)
      { recordIDs := [] } sampleChallenge).2.1 sampleUpdate
      { Status := "success",
        Response := { Records := [{ sampleRecord with Content := "abc123" }],
                      ZoneConfig := sampleUpdate.ZoneConfig } }
      (by decide) (by rfl) (by decide)⟩

/-- The read `m[k]` after the assignment `m[k] = v`. -/
theorem mapGet_mapSet (m : StringMap) (k v : String) : mapGet (mapSet m k v) k = v := by
  unfold mapGet mapSet
  rw [List.lookup_cons]
  simp

/-- The extent of C5 on the code: when the registry holds no id for the FQDN before the
call, a successful update whose records hold no matching record with a non-empty id
makes Present return its error. -/
theorem Present_missing_record_fails (env : Env) (c : hostingdeDNSProviderSolver)
    (ch : ChallengeRequest) (req : ZoneUpdateRequest) (resp : ZoneUpdateResponse)
    (hfresh : mapGet c.recordIDs ch.ResolvedFQDN = "")
    (hmem : Call.update req ∈ (Present env c ch).calls)
    (hu : updateZone env req = Go.ret (some resp, none))
    (hno : ∀ record ∈ resp.Response.Records,
      ¬ (record.Name = ToLower env.lib (UnFqdn ch.ResolvedFQDN) ∧
        record.Content = "\"" ++ ch.Key ++ "\"" ∧ record.ID ≠ "")) :
    (Present env c ch).result
      = Go.ret (some ⟨"hostingde: error getting ID of just created record, for domain "
          ++ ch.ResolvedFQDN⟩) := by
  rcases Present_registry env c ch with ⟨_, hnone⟩ | ⟨req1, resp1, honly, _, hu1, hreg, hres⟩
  · exact absurd hu (hnone req resp hmem)
  · have hreq : req = req1 := honly req hmem
    subst hreq
    rw [hu] at hu1
    cases hu1
    have hget : mapGet (Present env c ch).solver.recordIDs ch.ResolvedFQDN = "" := by
      rw [hreg]
      rcases registerRecords_spec env.lib ch.ResolvedFQDN ch.Key resp.Response.Records
        c.recordIDs with ⟨_, heq⟩ | ⟨record, hrec, hn, hc, heq⟩
      · rw [heq]; exact hfresh
      · rw [heq, mapGet_mapSet]
        by_contra hid
        exact hno record hrec ⟨hn, hc, hid⟩
    exact hres hget

/-- C5, evaluated where the code departs from it: a first Present stores "rec-1" under the
FQDN; a second Present for the same FQDN with another key gets a successful update whose
record list is empty, so no record matches, and yet it returns a nil error, because
the check reads the entry the first call left. -/
theorem Present_stale_entry_hides_missing_record :
    (Present sampleWorld (Initialize {}) sampleChallenge).result = Go.ret none ∧
    (Present sampleWorld (Initialize {}) sampleChallenge).solver.recordIDs
      = [("_acme-challenge.example.com.", "rec-1")] ∧
    updateZone (sampleEnv (fun _ => zoneReply "active") (updateReply "success" []) 5)
        { sampleUpdate with
          RecordsToAdd := [{ Type_ := "TXT", Name := "_acme-challenge.example.com",
                             Content := "xyz789", TTL := 120 }] }
      = Go.ret (some { Status := "success",
                       Response := { Records := [], ZoneConfig := sampleUpdate.ZoneConfig } },
                none) ∧
    (Present (sampleEnv (fun _ => zoneReply "active") (updateReply "success" []) 5)
        (Present sampleWorld (Initialize {}) sampleChallenge).solver
        { sampleChallenge with Key := "xyz789" }).result = Go.ret none ∧
    (Present (sampleEnv (fun _ => zoneReply "active") (updateReply "success" []) 5)
        (Present sampleWorld (Initialize {}) sampleChallenge).solver
        { sampleChallenge with Key := "xyz789" }).calls
      = [Call.find { AuthToken := "token-default",
                     Filter := { Field := "zoneName", Value := "example.com" },
                     Limit := 1, Page := 1 },
         Call.update { sampleUpdate with
           RecordsToAdd := [{ Type_ := "TXT", Name := "_acme-challenge.example.com",
                              Content := "xyz789", TTL := 120 }] }] := by
  decide

/-- C6 as stated fails when the zone lookup fails: after a Present that stored "rec-1"
under the FQDN, a CleanUp whose lookup is refused returns that error and the entry is
still in the registry. -/
theorem CleanUp_keeps_entry_when_lookup_fails :
    (CleanUp (sampleEnv (fun _ _ => refusedReply) (updateReply "success" []) 5)
        (Present sampleWorld (Initialize {}) sampleChallenge).solver
        sampleChallenge).solver.recordIDs.lookup "_acme-challenge.example.com."
      = some "rec-1" ∧
    (CleanUp (sampleEnv (fun _ _ => refusedReply) (updateReply "success" []) 5)
        (Present sampleWorld (Initialize {}) sampleChallenge).solver
        sampleChallenge).result
      = Go.ret (some ⟨"hostingde: error querying API: connection refused"⟩) := by
  decide

/-- C6, amended: when the solver holds a configuration and the zone lookup of CleanUp
returns a zone, the registry afterwards has no entry for the FQDN, whether or not it had
one, and every other key is as before; the delete request is sent, and what CleanUp
returns is what the zone update returns (nil for a nil error, the wrapped error
otherwise), so a missing entry causes no error and a failing update does not keep the
entry.  When the lookup returns an error, CleanUp returns it and leaves the solver as it
was. -/
theorem CleanUp_drops_entry_after_lookup (env : Env) (c : hostingdeDNSProviderSolver)
    (ch : ChallengeRequest) (config : Config) (hconfig : c.config = some config) :
    (∀ zoneConfig n,
      getZone env { Filter := { Field := "zoneName", Value := config.ZoneName },
                    Limit := 1, Page := 1, AuthToken := config.APIKey }
        = (Go.ret (some zoneConfig, none), n) →
      (CleanUp env c ch).solver.recordIDs = mapDelete c.recordIDs ch.ResolvedFQDN ∧
      (CleanUp env c ch).solver.recordIDs.lookup ch.ResolvedFQDN = none ∧
      (∀ g, g ≠ ch.ResolvedFQDN →
        (CleanUp env c ch).solver.recordIDs.lookup g = c.recordIDs.lookup g) ∧
      (CleanUp env c ch).calls
        = List.replicate n
            (Call.find { Filter := { Field := "zoneName", Value := config.ZoneName },
                         Limit := 1, Page := 1, AuthToken := config.APIKey })
          ++ [Call.update
                { ZoneConfig := { zoneConfig with Name := config.ZoneName },
                  RecordsToDelete :=
                    [{ Type_ := "TXT", Name := UnFqdn ch.ResolvedFQDN,
                       Content := "\"" ++ ch.Key ++ "\"" }],
                  AuthToken := config.APIKey }] ∧
      (∀ resp,
        updateZone env
            { ZoneConfig := { zoneConfig with Name := config.ZoneName },
              RecordsToDelete :=
                [{ Type_ := "TXT", Name := UnFqdn ch.ResolvedFQDN,
                   Content := "\"" ++ ch.Key ++ "\"" }],
              AuthToken := config.APIKey }
          = Go.ret (resp, none) →
        (CleanUp env c ch).result = Go.ret none) ∧
      (∀ resp err,
        updateZone env
            { ZoneConfig := { zoneConfig with Name := config.ZoneName },
              RecordsToDelete :=
                [{ Type_ := "TXT", Name := UnFqdn ch.ResolvedFQDN,
                   Content := "\"" ++ ch.Key ++ "\"" }],
              AuthToken := config.APIKey }
          = Go.ret (resp, some err) →
        (CleanUp env c ch).result = Go.ret (some ⟨"hostingde: " ++ err.msg⟩)) ∧
      (∀ r,
        updateZone env
            { ZoneConfig := { zoneConfig with Name := config.ZoneName },
              RecordsToDelete :=
                [{ Type_ := "TXT", Name := UnFqdn ch.ResolvedFQDN,
                   Content := "\"" ++ ch.Key ++ "\"" }],
              AuthToken := config.APIKey }
          = Go.panic r →
        (CleanUp env c ch).result = Go.panic r)) ∧
    (∀ zoneConfig err n,
      getZone env { Filter := { Field := "zoneName", Value := config.ZoneName },
                    Limit := 1, Page := 1, AuthToken := config.APIKey }
        = (Go.ret (zoneConfig, some err), n) →
      (CleanUp env c ch).solver = c ∧
      (CleanUp env c ch).result = Go.ret (some ⟨"hostingde: " ++ err.msg⟩)) := by
  constructor
  · intro zoneConfig n hz
    have hreg : (CleanUp env c ch).solver.recordIDs = mapDelete c.recordIDs ch.ResolvedFQDN := by
      unfold CleanUp
      simp only [hconfig, hz]
      split <;> rfl
    refine ⟨hreg, ?_, ?_, ?_, ?_, ?_, ?_⟩
    · rw [hreg]; exact lookup_mapDelete_self _ _
    · intro g hg
      rw [hreg]; exact lookup_mapDelete_other _ _ g hg
    · unfold CleanUp
      simp only [hconfig, hz]
      split <;> rfl
    · intro resp hu
      unfold CleanUp
      simp only [hconfig, hz, hu]
    · intro resp err hu
      unfold CleanUp
      simp only [hconfig, hz, hu]
    · intro r hu
      unfold CleanUp
      simp only [hconfig, hz, hu]
  · intro zoneConfig err n hz
    unfold CleanUp
    simp only [hconfig, hz]
    exact ⟨trivial, trivial⟩

/-- Witness of C6 as amended.  With the entry missing: after the Present of the sample
world the registry has no entry for the FQDN of `otherChallenge`; its CleanUp sends the
delete, returns nil, leaves no entry for that FQDN and keeps the entry of the other
name.  With the entry present and the update failing with status "error": CleanUp
returns the error of the update and the entry is gone. -/
theorem CleanUp_drops_entry_after_lookup_witness :
    (Present sampleWorld (Initialize {}) sampleChallenge).solver.config
      = some { APIKey := "token-default", ZoneName := "example.com", TTL := 120 } ∧
    (Present sampleWorld (Initialize {}) sampleChallenge).solver.recordIDs.lookup
      "_acme-challenge.www.example.com." = none ∧
    (CleanUp sampleWorld (Present sampleWorld (Initialize {}) sampleChallenge).solver
        otherChallenge).result = Go.ret none ∧
    Call.update otherDelete ∈
      (CleanUp sampleWorld (Present sampleWorld (Initialize {}) sampleChallenge).solver
        otherChallenge).calls ∧
    (CleanUp sampleWorld (Present sampleWorld (Initialize {}) sampleChallenge).solver
        otherChallenge).solver.recordIDs.lookup "_acme-challenge.www.example.com." = none ∧
    (CleanUp sampleWorld (Present sampleWorld (Initialize {}) sampleChallenge).solver
        otherChallenge).solver.recordIDs.lookup "_acme-challenge.example.com."
      = some "rec-1" ∧
    (Present sampleWorld (Initialize {}) sampleChallenge).solver.recordIDs.lookup
      "_acme-challenge.example.com." = some "rec-1" ∧
    (CleanUp (sampleEnv (fun _ => zoneReply "active") (updateReply "error" []) 5)
        (Present sampleWorld (Initialize {}) sampleChallenge).solver sampleChallenge).result
      = Go.ret (some ⟨"hostingde: the request https://secure.hosting.de/api/dns/v1/json/zoneUpdate sent a response with a body which is an invalid format: \"status error\""⟩) ∧
    (CleanUp (sampleEnv (fun _ => zoneReply "active") (updateReply "error" []) 5)
        (Present sampleWorld (Initialize {}) sampleChallenge).solver
        sampleChallenge).solver.recordIDs.lookup "_acme-challenge.example.com." = none :=
  have h := (CleanUp_drops_entry_after_lookup sampleWorld
      (Present sampleWorld (Initialize {}) sampleChallenge).solver otherChallenge
      { APIKey := "token-default", ZoneName := "example.com", TTL := 120 } (by decide)).1
      { ID := "zone-1", Status := "active", Name := "example.com" } 3 (by decide)
  have hfail := (CleanUp_drops_entry_after_lookup
      (sampleEnv (fun _ => zoneReply "active") (updateReply "error" []) 5)
      (Present sampleWorld (Initialize {}) sampleChallenge).solver sampleChallenge
      { APIKey := "token-default", ZoneName := "example.com", TTL := 120 } (by decide)).1
      { ID := "zone-1", Status := "active", Name := "example.com" } 1 (by decide)
  ⟨by decide, by decide,
    h.2.2.2.2.1
      (some { Status := "success",
              Response := { Records := [sampleRecord], ZoneConfig := otherDelete.ZoneConfig } })
      (by rfl),
    by rw [h.2.2.2.1]; decide,
    h.2.1,
    by rw [h.2.2.1 "_acme-challenge.example.com." (by decide)]; decide,
    by decide,
    hfail.2.2.2.2.2.1 none
      ⟨"the request https://secure.hosting.de/api/dns/v1/json/zoneUpdate sent a response with a body which is an invalid format: \"status error\""⟩
      (by rfl),
    hfail.2.1⟩

/-- C7, evaluated where the code departs from it: CleanUp never resolves the
configuration of its challenge.  On a freshly initialised solver it panics on the nil
`c.config` before any lookup; its result does not depend on the configuration, namespace
or zone of the challenge; and after a Present for the zone "example.com" (namespace
"default"), a CleanUp for a challenge whose own configuration resolves to the zone
"example.org" with the token of namespace "other" sends the lookup for "example.com"
with the token of "default". -/
theorem CleanUp_reads_stored_config :
    (∀ env ch, CleanUp env (Initialize {}) ch
      = { solver := Initialize {}, result := Go.panic Panic.nilConfig, calls := [] }) ∧
    (∀ env c ch config namespace_ zone,
      CleanUp env c { ch with Config := config, ResourceNamespace := namespace_,
                              ResolvedZone := zone }
        = CleanUp env c ch) ∧
    clientConfig sampleWorld
        { ResourceNamespace := "other", ResolvedZone := "example.org.",
          ResolvedFQDN := "_acme-challenge.example.org.", Key := "k2",
          Config := some "example.org" }
      = (some { APIKey := "token-other", ZoneName := "example.org", TTL := 120 }, none) ∧
    (CleanUp sampleWorld (Present sampleWorld (Initialize {}) sampleChallenge).solver
        { ResourceNamespace := "other", ResolvedZone := "example.org.",
          ResolvedFQDN := "_acme-challenge.example.org.", Key := "k2",
          Config := some "example.org" }).calls.head?
      = some (Call.find { AuthToken := "token-default",
                          Filter := { Field := "zoneName", Value := "example.com" },
                          Limit := 1, Page := 1 }) := by
  refine ⟨fun env ch => rfl, fun env c ch config namespace_ zone => rfl, by decide, by decide⟩

end Hostingde
